import Mathlib

/-!
Verification of the NVT binary dataloader
(`examples/nvt_dataloader/nvt_binary_dataloader.py`).

The development shallowly embeds the byte-layout computation, the positional
read / decode path and the prefetch scheduler of `ParametricDataset`:

* binary files are byte lists (`List Nat`, one entry per byte, values < 256);
* `os.pread(fd, count, offset)` becomes `pread`: it fails on a negative
  offset (the OS rejects it with EINVAL) and otherwise returns the available
  bytes, possibly fewer than `count` near end of file;
* `np.frombuffer` becomes an `Except`-valued decoder that fails when the
  buffer size is not a multiple of the element size, and decodes little-endian
  two's-complement integers; `float16` elements are represented by their
  16-bit patterns (the decode step is a bijection on bit patterns, and all
  claims are about byte/bit identity and shape, never float arithmetic);
* Python's float division followed by `math.ceil` / `math.floor` is modelled
  by exact rational division with `Nat.ceil` / `Nat.floor` (the quotient of
  two naturals is nonnegative);
* the single-worker executor runs `_get_item` — a deterministic pure function
  of the immutable files — so a future is identified by the index it was
  submitted with, and resolving it yields `get_item` at that index; the
  prefetch FIFO is a `List Nat` of submitted-but-not-yet-consumed indices.

The lengths of `DEFAULT_INT_NAMES` / `DEFAULT_CAT_NAMES` (13 / 26 for Criteo)
live in `torchrec.datasets.criteo`, outside the analysed file; the embedding
is parametric in `num_int_features` and in the list of categorical max ids,
which is strictly more general and covers the claims as stated.
-/

/-- Decidable equality for `Except` results, so that concrete runs of the
embedded fallible operations can be checked by `decide`. -/
instance {ε α : Type} [DecidableEq ε] [DecidableEq α] : DecidableEq (Except ε α) :=
  fun x y =>
    match x, y with
    | .ok a, .ok b =>
      if h : a = b then .isTrue (by rw [h]) else .isFalse (by simp [h])
    | .error a, .error b =>
      if h : a = b then .isTrue (by rw [h]) else .isFalse (by simp [h])
    | .ok _, .error _ => .isFalse (by simp)
    | .error _, .ok _ => .isFalse (by simp)

/-- The three numpy integer types the layout resolver iterates over, in the
order of the tuple `types = (np.int8, np.int16, np.int32)`. -/
inductive NpIntType : Type
  | int8
  | int16
  | int32
deriving DecidableEq

/-- Maximum representable value of each signed width: `np.iinfo(t).max`. -/
def iinfoMax : NpIntType → Nat
  | .int8 => 127
  | .int16 => 32767
  | .int32 => 2147483647

/-- Byte width of each type: `np.dtype(t).itemsize`. -/
def itemsize : NpIntType → Nat
  | .int8 => 1
  | .int16 => 2
  | .int32 => 4

/-- Embeds `get_categorical_feature_type`: scan `(np.int8, np.int16,
np.int32)` in order and return the first type with `size < np.iinfo(t).max`
(strict inequality, as in the source); raise `RuntimeError` when none fits. -/
def get_categorical_feature_type (size : Nat) : Except String NpIntType :=
  match [NpIntType.int8, NpIntType.int16, NpIntType.int32].find?
      (fun t => decide (size < iinfoMax t)) with
  | some t => .ok t
  | none => .error "Categorical feature of size is too big for defined types"

/-- Constructor arguments of `ParametricDataset.__init__`, with the opened
binary files replaced by their byte contents and the JSON cardinality table by
the list of max ids in `DEFAULT_CAT_NAMES` order. -/
structure InitParams where
  batch_size : Nat
  prefetch_depth : Nat
  drop_last_batch : Bool
  cat_max_ids : List Nat
  num_int_features : Nat
  label_file : List Nat
  numerical_file : List Nat
  cat_files : List (List Nat)
deriving DecidableEq

/-- The state `__init__` leaves behind. -/
structure ParametricDataset where
  batch_size : Nat
  num_int_features : Nat
  categorical_types : List NpIntType
  numerical_bytes_per_batch : Nat
  label_bytes_per_batch : Nat
  categorical_bytes_per_batch : List Nat
  num_entries : Nat
  prefetch_depth : Nat
  label_file : List Nat
  numerical_file : List Nat
  categorical_features_files : List (List Nat)
deriving DecidableEq

/-- The successive overwrites of the local `batch_num_float` in `__init__`:
one assignment per categorical file, then one for the numerical file, then one
for the label file; only the last assignment survives. -/
def finalBatchNumFloat (catSizes catBpbs : List Nat)
    (numSize numBpb labelSize labelBpb : Nat) : ℚ :=
  let _batch_num_float : ℚ :=
    ((catSizes.zip catBpbs).map (fun sb => (sb.1 : ℚ) / (sb.2 : ℚ))).foldl
      (fun _ x => x) 0
  let _batch_num_float : ℚ := (numSize : ℚ) / (numBpb : ℚ)
  (labelSize : ℚ) / (labelBpb : ℚ)

/-- Embeds `ParametricDataset.__init__`.  The only failure the constructor
body can raise besides file-open errors (not modelled: files are given as
contents) is the `RuntimeError` of `get_categorical_feature_type`, applied to
`max_id + 1` for each categorical feature.  Byte widths: `np.float16` has
itemsize 2, `np.bool` has itemsize 1.  `number_of_batches` rounds the final
`batch_num_float` — the label-file quotient — with `math.ceil` or
`math.floor` according to `drop_last_batch`, and `prefetch_depth` is clamped
to the number of entries. -/
def ParametricDataset.init (P : InitParams) : Except String ParametricDataset := do
  let categorical_types ← P.cat_max_ids.mapM
    (fun m => get_categorical_feature_type (m + 1))
  let numerical_bytes_per_batch := 2 * P.num_int_features * P.batch_size
  let label_bytes_per_batch := 1 * P.batch_size
  let categorical_bytes_per_batch :=
    categorical_types.map (fun t => itemsize t * P.batch_size)
  let batch_num_float := finalBatchNumFloat
    (P.cat_files.map List.length) categorical_bytes_per_batch
    P.numerical_file.length numerical_bytes_per_batch
    P.label_file.length label_bytes_per_batch
  let number_of_batches : Nat :=
    if P.drop_last_batch then ⌊batch_num_float⌋₊ else ⌈batch_num_float⌉₊
  .ok {
    batch_size := P.batch_size
    num_int_features := P.num_int_features
    categorical_types := categorical_types
    numerical_bytes_per_batch := numerical_bytes_per_batch
    label_bytes_per_batch := label_bytes_per_batch
    categorical_bytes_per_batch := categorical_bytes_per_batch
    num_entries := number_of_batches
    prefetch_depth := min P.prefetch_depth number_of_batches
    label_file := P.label_file
    numerical_file := P.numerical_file
    categorical_features_files := P.cat_files }

/-- Embeds `os.pread(fd, count, offset)` on a file given by its contents: a
negative offset is rejected by the OS with `EINVAL`; otherwise the call
returns the bytes available in `[offset, offset + count)`, which may be fewer
than `count` near end of file. -/
def pread (file : List Nat) (count : Nat) (offset : ℤ) : Except String (List Nat) :=
  if offset < 0 then .error "OSError: Invalid argument"
  else .ok ((file.drop offset.toNat).take count)

/-- Splits a list into its consecutive exact chunks of width `w` (any
incomplete trailing chunk is not produced; callers check divisibility
beforehand, as `np.frombuffer` and `Tensor.view` do). -/
def chunksOf (w : Nat) (l : List α) : List (List α) :=
  (List.range (l.length / w)).map (fun i => (l.drop (i * w)).take w)

/-- Value of a little-endian byte list. -/
def leValue : List Nat → Nat
  | [] => 0
  | b :: rest => b + 256 * leValue rest

/-- Two's-complement reading of one little-endian element of type `t`. -/
def decodeSigned (t : NpIntType) (chunk : List Nat) : ℤ :=
  let u := leValue chunk
  let M := 2 ^ (8 * itemsize t)
  if u < M / 2 then (u : ℤ) else (u : ℤ) - (M : ℤ)

/-- Embeds `np.frombuffer(raw, dtype=t)` for a signed integer type `t`:
fails unless the buffer size is a multiple of the element size, and otherwise
reinterprets the bytes as little-endian two's-complement elements. -/
def npFrombufferInt (t : NpIntType) (raw : List Nat) : Except String (List ℤ) :=
  if raw.length % itemsize t ≠ 0 then
    .error "ValueError: buffer size must be a multiple of element size"
  else .ok ((chunksOf (itemsize t) raw).map (decodeSigned t))

/-- Embeds `np.frombuffer(raw, dtype=np.float16)` with each element
represented by its 16-bit pattern (`b0 + 256 * b1`): fails unless the buffer
size is even. -/
def npFrombufferF16 (raw : List Nat) : Except String (List Nat) :=
  if raw.length % 2 ≠ 0 then
    .error "ValueError: buffer size must be a multiple of element size"
  else .ok ((chunksOf 2 raw).map leValue)

/-- Embeds `Tensor.view(-1, k)`: fails unless the element count is a multiple
of `k`, and otherwise reshapes the flat list into rows of `k`. -/
def torchView (k : Nat) (flat : List α) : Except String (List (List α)) :=
  if k = 0 ∨ flat.length % k ≠ 0 then .error "RuntimeError: shape invalid for input size"
  else .ok (chunksOf k flat)

/-- Decoded output of one `_get_item` call, in the source's tuple order
`(numerical_features, categorical_features, click)`.  Numerical entries are
float16 bit patterns; categorical ids are the mathematical values after
`.to(torch.long)` (sign-extension preserves the value); label entries are the
exact float32 values 0 and 1 produced from booleans. -/
structure RawBatch where
  numerical : List (List Nat)
  categorical : List ℤ
  label : List ℚ
deriving DecidableEq

/-- Embeds `_get_label`: one `pread` of `label_bytes_per_batch` bytes at
offset `idx * label_bytes_per_batch`, reinterpreted as `np.bool` (itemsize 1:
each byte is one element, nonzero meaning `True`) and converted to float32,
giving exactly 1 for a nonzero byte and 0 for a zero byte. -/
def ParametricDataset.get_label (D : ParametricDataset) (idx : ℤ) :
    Except String (List ℚ) := do
  let raw ← pread D.label_file D.label_bytes_per_batch
    (idx * (D.label_bytes_per_batch : ℤ))
  .ok (raw.map (fun b => if b = 0 then (0 : ℚ) else 1))

/-- Embeds `_get_numerical_features`: one `pread` of
`numerical_bytes_per_batch` bytes at offset `idx * numerical_bytes_per_batch`,
reinterpreted as float16 and reshaped by `view(-1, len(DEFAULT_INT_NAMES))`. -/
def ParametricDataset.get_numerical_features (D : ParametricDataset) (idx : ℤ) :
    Except String (List (List Nat)) := do
  let raw ← pread D.numerical_file D.numerical_bytes_per_batch
    (idx * (D.numerical_bytes_per_batch : ℤ))
  let array ← npFrombufferF16 raw
  torchView D.num_int_features array

/-- Embeds `torch.cat(tensors, dim=1).view(-1)` on the list of per-feature
`1 × batch_size` rows: `torch.cat` raises a `RuntimeError` on an empty list
of tensors; otherwise the rows are joined in order and flattened. -/
def torchCat (tensors : List (List ℤ)) : Except String (List ℤ) :=
  if tensors.isEmpty then
    .error "RuntimeError: expected a non-empty list of Tensors"
  else .ok tensors.flatten

/-- Embeds `_get_categorical_features`: for each categorical feature (the
`zip` of per-feature byte counts, resolved types and files), one `pread` of
`cat_bytes` bytes at offset `idx * cat_bytes` reinterpreted with the feature's
own type and widened by `.to(torch.long)`; the per-feature rows are then
passed to `torch.cat(..., dim=1).view(-1)`, which joins them in
feature-declaration order (and raises when there are no features at all). -/
def ParametricDataset.get_categorical_features (D : ParametricDataset) (idx : ℤ) :
    Except String (List ℤ) := do
  let arrays ← (D.categorical_bytes_per_batch.zip
      (D.categorical_types.zip D.categorical_features_files)).mapM
    (fun c => do
      let raw ← pread c.2.2 c.1 (idx * (c.1 : ℤ))
      npFrombufferInt c.2.1 raw)
  torchCat arrays

/-- Embeds `_get_item`: label, then numerical, then categorical reads, and
the result tuple `(numerical_features, categorical_features, click)`. -/
def ParametricDataset.get_item (D : ParametricDataset) (idx : ℤ) :
    Except String RawBatch := do
  let click ← D.get_label idx
  let numerical_features ← D.get_numerical_features idx
  let categorical_features ← D.get_categorical_features idx
  .ok ⟨numerical_features, categorical_features, click⟩

/-- Identifies the feature-group file a positional read targets. -/
inductive FileGroup : Type
  | label
  | numerical
  | cat (k : Nat)
deriving DecidableEq

/-- One `os.pread` call: target file, absolute byte offset, byte count. -/
structure ReadOp where
  group : FileGroup
  offset : ℤ
  count : Nat
deriving DecidableEq

/-- The single positional read `_get_label` issues. -/
def ParametricDataset.get_label_reads (D : ParametricDataset) (idx : ℤ) :
    List ReadOp :=
  [⟨.label, idx * (D.label_bytes_per_batch : ℤ), D.label_bytes_per_batch⟩]

/-- The single positional read `_get_numerical_features` issues. -/
def ParametricDataset.get_numerical_reads (D : ParametricDataset) (idx : ℤ) :
    List ReadOp :=
  [⟨.numerical, idx * (D.numerical_bytes_per_batch : ℤ), D.numerical_bytes_per_batch⟩]

/-- The positional reads `_get_categorical_features` issues: one per
categorical feature, at that feature's own stride. -/
def ParametricDataset.get_categorical_reads (D : ParametricDataset) (idx : ℤ) :
    List ReadOp :=
  D.categorical_bytes_per_batch.enum.map
    (fun c => ⟨.cat c.1, idx * (c.2 : ℤ), c.2⟩)

/-- All positional reads one `_get_item` call issues, in call order. -/
def ParametricDataset.get_item_reads (D : ParametricDataset) (idx : ℤ) :
    List ReadOp :=
  D.get_label_reads idx ++ D.get_numerical_reads idx ++ D.get_categorical_reads idx

/-- The bounds check opening `__getitem__`: `if idx >= self._num_entries:
raise IndexError()`.  Note the check is one-sided. -/
def ParametricDataset.raisesIndexError (D : ParametricDataset) (idx : ℤ) : Bool :=
  (D.num_entries : ℤ) ≤ idx

/-- Embeds `__getitem__` on the synchronous path (`prefetch_depth <= 1`):
the bounds check, then a direct `_get_item` call. -/
def ParametricDataset.getitemSync (D : ParametricDataset) (idx : ℤ) :
    Except String RawBatch :=
  if (D.num_entries : ℤ) ≤ idx then .error "IndexError" else D.get_item idx

/-- Positional reads performed by `__getitem__` on the synchronous path: none
when the bounds check fires, otherwise exactly those of one `_get_item`. -/
def ParametricDataset.getitemSyncReads (D : ParametricDataset) (idx : ℤ) :
    List ReadOp :=
  if (D.num_entries : ℤ) ≤ idx then [] else D.get_item_reads idx

/-- Futures submitted by one `__getitem__` call on the prefetch path, for a
dataset with `n` entries and clamped depth `p`, identified by their index
argument: the initial fill `0 .. p-1` when `idx == 0`, then one window
extension `idx + p` when `idx < n - p` (a Python `int` comparison, hence
taken over `ℤ`). -/
def prefetchSubmits (n p : Nat) (idx : Nat) : List Nat :=
  (if idx = 0 then List.range p else []) ++
    (if (idx : ℤ) < (n : ℤ) - (p : ℤ) then [idx + p] else [])

/-- One `__getitem__` call on the prefetch path, acting on the FIFO of
in-flight futures `q`: append this call's submissions, then take the front
future (`self._prefetch_queue.get()`).  Returns the mid-call queue (after the
submissions, before the `get`), the queue left for the next call, and the
index whose future is consumed (`none` would mean `queue.get()` blocks on an
empty queue). -/
def getitemStep (n p : Nat) (q : List Nat) (idx : Nat) :
    List Nat × List Nat × Option Nat :=
  let q2 := q ++ prefetchSubmits n p idx
  (q2, q2.tail, q2.head?)

/-- State after the caller has requested indices `0 .. k-1` in order on the
prefetch path: the list of consumed indices (in consumption order) and the
FIFO of still-in-flight futures. -/
def runSteps (n p : Nat) : Nat → List Nat × List Nat
  | 0 => ([], [])
  | k + 1 =>
    let r := runSteps n p k
    let s := getitemStep n p r.2 k
    (r.1 ++ s.2.2.toList, s.2.1)

/-- Number of submitted-but-not-yet-consumed fetches at the point inside the
call for index `k` right after its submissions, before its `queue.get()`. -/
def midQueueLen (n p : Nat) (k : Nat) : Nat :=
  ((getitemStep n p (runSteps n p k).2 k).1).length

/-- All futures submitted over a full sequential consumption, in submission
order. -/
def allSubmits (n p : Nat) : List Nat :=
  (List.range n).flatMap (prefetchSubmits n p)

/-- Results the caller receives over a full in-order consumption of
`0 .. n-1` on the prefetch path: each consumed future resolves to `_get_item`
at its submitted index (deterministic single-worker executor over immutable
files). -/
def ParametricDataset.seqResults (D : ParametricDataset) :
    List (Except String RawBatch) :=
  ((runSteps D.num_entries D.prefetch_depth D.num_entries).1).map
    (fun (j : ℕ) => D.get_item (j : ℤ))

/-- Modelled from the spec (section 4.2): the usable batch count determined by
the label file alone — `ceil(file_bytes / bytes_per_batch)` when
`drop_last_batch` is false and `floor(...)` when true — written with natural
division so it can be compared against the constructor's rational
computation. -/
def labelBatchCount (P : InitParams) : Nat :=
  if P.drop_last_batch then P.label_file.length / (1 * P.batch_size)
  else (P.label_file.length + 1 * P.batch_size - 1) / (1 * P.batch_size)

/-- Concrete constructor input used to exercise the spec's concrete scenario:
3 categorical features with max ids `[200, 70000, 5]`, `batch_size = 2`,
2 numerical features, and files sized for exactly 3 full batches. -/
def Pex : InitParams :=
  { batch_size := 2
    prefetch_depth := 2
    drop_last_batch := false
    cat_max_ids := [200, 70000, 5]
    num_int_features := 2
    label_file := [1, 0, 2, 0, 1, 1]
    numerical_file := List.range 24
    cat_files := [List.range 12, List.range 24, List.range 6] }

/-- The dataset state `__init__` produces from `Pex`: widths 16/32/8 bit,
numerical stride 8, label stride 2, categorical strides `[4, 8, 2]`, and
3 batches. -/
def Dex4 : ParametricDataset :=
  { batch_size := 2
    num_int_features := 2
    categorical_types := [.int16, .int32, .int8]
    numerical_bytes_per_batch := 8
    label_bytes_per_batch := 2
    categorical_bytes_per_batch := [4, 8, 2]
    num_entries := 3
    prefetch_depth := 2
    label_file := [1, 0, 2, 0, 1, 1]
    numerical_file := List.range 24
    categorical_features_files := [List.range 12, List.range 24, List.range 6] }

/-- Constructor input whose feature-group files imply different batch counts:
the label file holds 3 batches of 2 bytes, while the single categorical file
(stride 2) and the numerical file (stride 4) each hold exactly 1 batch. -/
def Pmis : InitParams :=
  { batch_size := 2
    prefetch_depth := 1
    drop_last_batch := false
    cat_max_ids := [5]
    num_int_features := 1
    label_file := [1, 0, 2, 0, 1, 1]
    numerical_file := [7, 7, 7, 7]
    cat_files := [[9, 9]] }

/-- The dataset `__init__` builds from the mismatched input `Pmis` without
raising: its length comes from the label file alone. -/
def Dmis : ParametricDataset :=
  { batch_size := 2
    num_int_features := 1
    categorical_types := [.int8]
    numerical_bytes_per_batch := 4
    label_bytes_per_batch := 2
    categorical_bytes_per_batch := [2]
    num_entries := 3
    prefetch_depth := 1
    label_file := [1, 0, 2, 0, 1, 1]
    numerical_file := [7, 7, 7, 7]
    categorical_features_files := [[9, 9]] }

/-- Small dataset with 5 batches and prefetch depth 2: batch size 1, one
numerical feature, and one int8 categorical feature, with pairwise distinct
batches; used to exercise the prefetch window on repeated requests. -/
def Dex5 : ParametricDataset :=
  { batch_size := 1
    num_int_features := 1
    categorical_types := [.int8]
    numerical_bytes_per_batch := 2
    label_bytes_per_batch := 1
    categorical_bytes_per_batch := [1]
    num_entries := 5
    prefetch_depth := 2
    label_file := [1, 2, 0, 4, 5]
    numerical_file := List.range 10
    categorical_features_files := [[7, 8, 9, 10, 11]] }

/-- The same dataset on the synchronous path (`prefetch_depth = 1`). -/
def Dsync : ParametricDataset :=
  { Dex5 with prefetch_depth := 1 }

/-- Floor of an exact rational quotient of naturals is natural division. -/
theorem natFloor_natCast_div (a b : ℕ) : ⌊(a : ℚ) / (b : ℚ)⌋₊ = a / b := by
  rw [Nat.floor_div_nat, Nat.floor_natCast]

/-- Ceiling of an exact rational quotient of naturals, as natural division. -/
theorem natCeil_natCast_div (a b : ℕ) (hb : 0 < b) :
    ⌈(a : ℚ) / (b : ℚ)⌉₊ = (a + b - 1) / b := by
  rcases Nat.eq_zero_or_pos a with ha | ha
  · subst ha
    have h0 : (b - 1) / b = 0 := Nat.div_eq_of_lt (by omega)
    simp [h0]
  · obtain ⟨a', rfl⟩ : ∃ a', a = a' + 1 := ⟨a - 1, by omega⟩
    have hbQ : (0 : ℚ) < (b : ℚ) := by exact_mod_cast hb
    have hRHS : (a' + 1 + b - 1) / b = a' / b + 1 := by
      rw [show a' + 1 + b - 1 = a' + b from by omega, Nat.add_div_right _ hb]
    rw [hRHS]
    apply le_antisymm
    · rw [Nat.ceil_le, div_le_iff₀ hbQ]
      have h1 : a' + 1 ≤ (a' / b + 1) * b := by
        calc a' + 1 ≤ b * (a' / b + 1) := Nat.lt_mul_div_succ a' hb
          _ = (a' / b + 1) * b := Nat.mul_comm _ _
      exact_mod_cast h1
    · have h3 : ((a' / b : ℕ) : ℚ) < ((a' + 1 : ℕ) : ℚ) / (b : ℚ) := by
        rw [lt_div_iff₀ hbQ]
        have h4 : a' / b * b ≤ a' := Nat.div_mul_le_self a' b
        exact_mod_cast Nat.lt_of_le_of_lt h4 (Nat.lt_succ_self a')
      exact Nat.succ_le_of_lt (Nat.lt_ceil.mpr h3)

/-- Closed form of a successful `__init__` run: when every categorical
cardinality resolves and the batch size is positive, the constructor returns
the dataset whose strides follow the resolved widths and whose entry count is
the label-file quotient rounded per `drop_last_batch`. -/
theorem init_ok (P : InitParams) (ct : List NpIntType)
    (hct : P.cat_max_ids.mapM (fun m => get_categorical_feature_type (m + 1)) = .ok ct)
    (hbs : 0 < P.batch_size) :
    ParametricDataset.init P = .ok
      { batch_size := P.batch_size
        num_int_features := P.num_int_features
        categorical_types := ct
        numerical_bytes_per_batch := 2 * P.num_int_features * P.batch_size
        label_bytes_per_batch := 1 * P.batch_size
        categorical_bytes_per_batch := ct.map (fun t => itemsize t * P.batch_size)
        num_entries := labelBatchCount P
        prefetch_depth := min P.prefetch_depth (labelBatchCount P)
        label_file := P.label_file
        numerical_file := P.numerical_file
        categorical_features_files := P.cat_files } := by
  have hlb : 0 < 1 * P.batch_size := by omega
  simp only [ParametricDataset.init, hct, finalBatchNumFloat, bind, Except.bind,
    labelBatchCount]
  have hc := natCeil_natCast_div P.label_file.length P.batch_size hbs
  have hf := natFloor_natCast_div P.label_file.length P.batch_size
  by_cases hd : P.drop_last_batch <;> simp [hd, hc, hf]

/-- The Python comparison `idx < num_entries - prefetch_depth` is an `int`
comparison; over naturals it reads `idx + p < n`. -/
theorem prefetchSubmits_eq (n p k : ℕ) :
    prefetchSubmits n p k =
      (if k = 0 then List.range p else []) ++ (if k + p < n then [k + p] else []) := by
  simp only [prefetchSubmits,
    show ((k : ℤ) < (n : ℤ) - (p : ℤ)) ↔ k + p < n from by omega]

/-- Queue invariant of the sequential run: after the calls for indices
`0 .. k-1`, the consumed indices are exactly `0 .. k-1` in order and the FIFO
holds the window `k .. min (k+p) n - 1`. -/
theorem runSteps_eq (n p : ℕ) (h1 : 1 < p) (h2 : p ≤ n) :
    ∀ k, 1 ≤ k → k ≤ n →
      runSteps n p k = (List.range k, List.range' k (min (k + p) n - k)) := by
  intro k
  induction k with
  | zero => omega
  | succ k ih =>
    intro _ hk1
    rcases Nat.eq_zero_or_pos k with rfl | hk
    · simp only [runSteps, getitemStep, prefetchSubmits_eq, if_pos rfl,
        if_true, List.nil_append, Nat.zero_add]
      by_cases hpn : p < n
      · rw [if_pos hpn]
        rw [show List.range p ++ [p] = List.range' 0 (p + 1) from by
          rw [List.range_eq_range', List.range'_1_concat, Nat.zero_add]]
        rw [List.head?_range', List.tail_range']
        have hmin : min (1 + p) n - 1 = p := by omega
        simp [hmin, List.range_succ, List.range_zero]
      · rw [if_neg hpn]
        rw [List.append_nil, List.range_eq_range', List.head?_range',
          List.tail_range']
        have hmin : min (1 + p) n - 1 = p - 1 := by omega
        simp [hmin, show p ≠ 0 from by omega, List.range_eq_range', List.range_succ, List.range_zero]
    · have hrec := ih (by omega) (by omega)
      simp only [runSteps, hrec, getitemStep, prefetchSubmits_eq,
        if_neg (show k ≠ 0 from by omega), List.nil_append]
      have hL : 1 ≤ min (k + p) n - k := by omega
      by_cases hkp : k + p < n
      · rw [if_pos hkp]
        have hmin : min (k + p) n - k = p := by omega
        rw [hmin]
        rw [show List.range' k p ++ [k + p] = List.range' k (p + 1) from by
          rw [List.range'_1_concat]]
        rw [List.head?_range', List.tail_range']
        have hmin2 : min (k + 1 + p) n - (k + 1) = p := by omega
        simp [hmin2, List.range_succ]
      · rw [if_neg hkp, List.append_nil]
        rw [List.head?_range', List.tail_range']
        have hne : min (k + p) n - k ≠ 0 := by omega
        have hmin2 : min (k + 1 + p) n - (k + 1) = min (k + p) n - k - 1 := by
          omega
        simp [hne, hmin2, List.range_succ]

/-- Window extensions submitted by the calls for indices `s .. s+m-1` (with
`s ≥ 1`, so no initial fill): the consecutive indices from `s + p` up to the
dataset end. -/
theorem flatMap_submits (n p : ℕ) : ∀ (m s : ℕ), 1 ≤ s →
    (List.range' s m).flatMap (prefetchSubmits n p) =
      List.range' (s + p) (min m (n - p - s)) := by
  intro m
  induction m with
  | zero => simp
  | succ m ih =>
    intro s hs
    rw [List.range'_succ, List.flatMap_cons, prefetchSubmits_eq,
      if_neg (show s ≠ 0 from by omega), List.nil_append, ih (s + 1) (by omega)]
    by_cases h : s + p < n
    · rw [if_pos h]
      have hmin : min (m + 1) (n - p - s) = min m (n - p - (s + 1)) + 1 := by
        omega
      rw [hmin, List.range'_succ]
      simp [show s + p + 1 = s + 1 + p from by omega]
    · rw [if_neg h]
      have h0 : min (m + 1) (n - p - s) = 0 := by omega
      have h0' : min m (n - p - (s + 1)) = 0 := by omega
      simp [h0, h0']

/-- Over a full sequential consumption, the submitted indices are exactly
`0, 1, ..., n-1`, in that order: the initial fill submits `0 .. p-1` and the
window extensions submit `p .. n-1`, each exactly once. -/
theorem allSubmits_eq (n p : ℕ) (h1 : 1 < p) (h2 : p ≤ n) :
    allSubmits n p = List.range n := by
  obtain ⟨m, rfl⟩ : ∃ m, n = m + 1 := ⟨n - 1, by omega⟩
  unfold allSubmits
  rw [List.range_eq_range', List.range'_succ, List.flatMap_cons,
    prefetchSubmits_eq, if_pos rfl, flatMap_submits _ _ m 1 (by omega)]
  by_cases h : 0 + p < m + 1
  · rw [if_pos h]
    have hmin : min m (m + 1 - p - 1) = m - p := by omega
    rw [hmin, List.append_assoc, Nat.zero_add,
      show ([p] : List ℕ) = List.range' p 1 from rfl,
      show 1 + p = p + 1 from by omega, List.range'_append_1]
    have hfull := List.range'_append_1 0 p (m - p + 1)
    rw [Nat.zero_add] at hfull
    rw [List.range_eq_range', hfull, ← List.range'_succ, List.range'_inj]
    omega
  · rw [if_neg h]
    have hmin : min m (m + 1 - p - 1) = 0 := by omega
    rw [hmin, List.range'_zero, List.append_nil, List.append_nil,
      List.range_eq_range', ← List.range'_succ, List.range'_inj]
    omega

/-- Mid-call bound: right after the submissions of the call for index `k`,
at most `p + 1` fetches are outstanding. -/
theorem midQueueLen_le (n p : ℕ) (h1 : 1 < p) (h2 : p ≤ n) (k : ℕ) (hk : k < n) :
    midQueueLen n p k ≤ p + 1 := by
  unfold midQueueLen getitemStep
  rcases Nat.eq_zero_or_pos k with rfl | hkpos
  · simp only [runSteps, prefetchSubmits_eq, if_pos rfl, if_true,
      List.nil_append, List.length_append, List.length_range]
    split_ifs <;> simp
  · rw [runSteps_eq n p h1 h2 k hkpos (by omega)]
    simp only [prefetchSubmits_eq, if_neg (show k ≠ 0 from by omega),
      List.nil_append, List.length_append, List.length_range']
    split_ifs <;> simp <;> omega

/-- Between calls, at most `p` fetches are outstanding. -/
theorem queueLen_le (n p : ℕ) (h1 : 1 < p) (h2 : p ≤ n) (k : ℕ) (hk : k < n) :
    ((runSteps n p (k + 1)).2).length ≤ p := by
  rw [runSteps_eq n p h1 h2 (k + 1) (by omega) (by omega)]
  simp only [List.length_range']
  omega

/-- Claim C1: with `1 < prefetch_depth <= num_entries`, requesting indices
`0, 1, ..., num_entries - 1` in order through the prefetch path serves, at
every position `i`, exactly the future submitted for index `i`, whose result
is the direct synchronous `_get_item i` — so the prefetch path is
byte-identical to direct positional reads at `i * bytes_per_batch` for every
feature group. -/
theorem C1_prefetch_refines_direct (D : ParametricDataset)
    (h1 : 1 < D.prefetch_depth) (h2 : D.prefetch_depth ≤ D.num_entries) :
    (runSteps D.num_entries D.prefetch_depth D.num_entries).1 =
        List.range D.num_entries ∧
    D.seqResults =
      (List.range D.num_entries).map (fun (i : ℕ) => D.get_item (i : ℤ)) ∧
    ∀ i : ℕ, i < D.num_entries → D.seqResults[i]? = some (D.get_item (i : ℤ)) := by
  have hn : 1 ≤ D.num_entries := by omega
  have hrun := runSteps_eq D.num_entries D.prefetch_depth h1 h2 D.num_entries hn
    (le_refl _)
  refine ⟨by rw [hrun], ?_, ?_⟩
  · unfold ParametricDataset.seqResults
    rw [hrun]
  · intro i hi
    unfold ParametricDataset.seqResults
    simp only [hrun]
    rw [List.getElem?_map, List.getElem?_range hi]
    rfl

/-- Witness for C1 at the concrete dataset `Dex4` (3 entries, depth 2). -/
theorem C1_prefetch_refines_direct_witness :
    (1 < Dex4.prefetch_depth ∧ Dex4.prefetch_depth ≤ Dex4.num_entries) ∧
    Dex4.seqResults[0]? = some (Dex4.get_item 0) := by
  refine ⟨⟨by decide, by decide⟩, ?_⟩
  have h := (C1_prefetch_refines_direct Dex4 (by decide) (by decide)).2.2 0
    (by decide)
  simpa using h

/-- Claim C2 counterexample: with 3 entries and prefetch depth 2, inside the
call for index 0 — after the initial fill of 2 futures and the window
extension for index 2, before the `queue.get()` — 3 fetches have been
submitted and none consumed, exceeding `prefetch_depth = 2`. -/
theorem C2_window_bound_counterexample :
    Dex4.num_entries = 3 ∧ Dex4.prefetch_depth = 2 ∧
    midQueueLen Dex4.num_entries Dex4.prefetch_depth 0 = 3 ∧
    ¬ midQueueLen Dex4.num_entries Dex4.prefetch_depth 0 ≤ Dex4.prefetch_depth := by
  decide

/-- Claim C2 (amended): during an in-order sequential consumption each batch
index is submitted exactly once, in increasing order; between consecutive
`__getitem__` calls at most `prefetch_depth` fetches are outstanding, and
within a call the momentary bound is `prefetch_depth + 1` (the window
extension is submitted before the front future is consumed). -/
theorem C2_window_invariants (n p : ℕ) (h1 : 1 < p) (h2 : p ≤ n) :
    allSubmits n p = List.range n ∧
    (∀ k, k < n → midQueueLen n p k ≤ p + 1) ∧
    (∀ k, k < n → ((runSteps n p (k + 1)).2).length ≤ p) :=
  ⟨allSubmits_eq n p h1 h2,
    fun k hk => midQueueLen_le n p h1 h2 k hk,
    fun k hk => queueLen_le n p h1 h2 k hk⟩

/-- Witness for C2 (amended) at `n = 3`, `p = 2`. -/
theorem C2_window_invariants_witness :
    allSubmits 3 2 = List.range 3 ∧ midQueueLen 3 2 1 ≤ 3 ∧
    ((runSteps 3 2 2).2).length ≤ 2 := by
  have h := C2_window_invariants 3 2 (by decide) (by decide)
  exact ⟨h.1, h.2.1 1 (by decide), h.2.2 1 (by decide)⟩

/-- The resolver's scan over `(int8, int16, int32)` as a decision chain of
strict comparisons. -/
theorem gcft_eq (size : Nat) :
    get_categorical_feature_type size =
      if size < 127 then .ok .int8
      else if size < 32767 then .ok .int16
      else if size < 2147483647 then .ok .int32
      else .error "Categorical feature of size is too big for defined types" := by
  unfold get_categorical_feature_type
  by_cases h1 : size < 127 <;> by_cases h2 : size < 32767 <;>
    by_cases h3 : size < 2147483647 <;>
    simp [List.find?, iinfoMax, h1, h2, h3] <;> omega

/-- Claim C3 counterexample: for max id 126 the cardinality is `126 + 1 =
127 = iinfoMax int8`, so the claim (smallest width with
`max_representable ≥ cardinality`) picks int8, but the resolver's strict
comparison `size < np.iinfo(t).max` rejects int8 and returns int16. -/
theorem C3_smallest_width_counterexample :
    get_categorical_feature_type (126 + 1) = .ok NpIntType.int16 ∧
    126 + 1 ≤ iinfoMax NpIntType.int8 ∧
    NpIntType.int16 ≠ NpIntType.int8 := by decide

/-- Claim C3 (amended): the resolver returns the narrowest of the supported
signed widths whose maximum representable value is STRICTLY greater than the
cardinality `size = max_id + 1`, and fails with the `RuntimeError` exactly
when even int32's maximum is not strictly greater, i.e. when
`size ≥ 2^31 - 1` (so the boundary cardinalities 127, 32767 and 2147483647,
though representable, are pushed to the next width or rejected). -/
theorem C3_width_resolution (size : ℕ) :
    (∀ t, get_categorical_feature_type size = .ok t →
      size < iinfoMax t ∧ ∀ t2, itemsize t2 < itemsize t → iinfoMax t2 ≤ size) ∧
    (get_categorical_feature_type size =
        .error "Categorical feature of size is too big for defined types" ↔
      iinfoMax NpIntType.int32 ≤ size) := by
  rw [gcft_eq]
  split_ifs with h1 h2 h3
  · refine ⟨?_, by simp [iinfoMax]; omega⟩
    intro t ht
    injection ht with h
    subst h
    refine ⟨by simpa [iinfoMax] using h1, ?_⟩
    intro t2 ht2
    cases t2 <;> simp [itemsize] at ht2
  · refine ⟨?_, by simp [iinfoMax]; omega⟩
    intro t ht
    injection ht with h
    subst h
    refine ⟨by simpa [iinfoMax] using h2, ?_⟩
    intro t2 ht2
    cases t2 <;> simp [itemsize] at ht2 <;> simp [iinfoMax] <;> omega
  · refine ⟨?_, by simp [iinfoMax]; omega⟩
    intro t ht
    injection ht with h
    subst h
    refine ⟨by simpa [iinfoMax] using h3, ?_⟩
    intro t2 ht2
    cases t2 <;> simp [itemsize] at ht2 <;> simp [iinfoMax] <;> omega
  · refine ⟨?_, by simp [iinfoMax]; omega⟩
    intro t ht
    cases ht

/-- Witness for C3 (amended) at cardinality 32767 (resolved to int32). -/
theorem C3_width_resolution_witness :
    iinfoMax NpIntType.int16 ≤ 32767 ∧ 32767 < iinfoMax NpIntType.int32 := by
  have h := (C3_width_resolution 32767).1 NpIntType.int32 (by decide)
  exact ⟨h.2 NpIntType.int16 (by decide), h.1⟩

/-- Inversion of a successful `__init__`: every stored field in terms of the
constructor arguments (the entry count, which involves the rational quotient,
is handled separately by `init_ok`). -/
theorem init_fields (P : InitParams) (D : ParametricDataset)
    (hD : ParametricDataset.init P = .ok D) :
    P.cat_max_ids.mapM (fun m => get_categorical_feature_type (m + 1)) =
        .ok D.categorical_types ∧
    D.batch_size = P.batch_size ∧
    D.num_int_features = P.num_int_features ∧
    D.numerical_bytes_per_batch = 2 * P.num_int_features * P.batch_size ∧
    D.label_bytes_per_batch = 1 * P.batch_size ∧
    D.categorical_bytes_per_batch =
      D.categorical_types.map (fun t => itemsize t * P.batch_size) ∧
    D.label_file = P.label_file ∧
    D.numerical_file = P.numerical_file ∧
    D.categorical_features_files = P.cat_files := by
  unfold ParametricDataset.init at hD
  cases hmap : P.cat_max_ids.mapM (fun m => get_categorical_feature_type (m + 1)) with
  | error e =>
    rw [hmap] at hD
    simp [bind, Except.bind] at hD
  | ok ct =>
    rw [hmap] at hD
    simp only [bind, Except.bind, Except.ok.injEq] at hD
    subst hD
    simp

/-- Tagging each categorical stride with its feature position commutes with
deriving the strides from the resolved types. -/
theorem enum_map_strides (bs : ℕ) (idx : ℤ) (ct : List NpIntType) :
    ((ct.map (fun t => itemsize t * bs)).enum.map
        (fun c => ReadOp.mk (.cat c.1) (idx * (c.2 : ℤ)) c.2)) =
      ct.enum.map (fun c =>
        ReadOp.mk (.cat c.1) (idx * ((itemsize c.2 * bs : ℕ) : ℤ))
          (itemsize c.2 * bs)) := by
  rw [List.enum_map, List.map_map]
  rfl

/-- Claim C4: for every valid batch index `idx`, one `_get_item` call issues
exactly one positional read per feature group, each of exactly that group's
`bytes_per_batch` bytes at absolute offset `idx * bytes_per_batch`: the label
group with `1 * batch_size` bytes, the numerical group with
`2 * num_int_features * batch_size` bytes, and each categorical group with
`itemsize(resolved type) * batch_size` bytes, the types being the resolver's
output on `max_id + 1`. -/
theorem C4_read_layout (P : InitParams) (D : ParametricDataset)
    (hD : ParametricDataset.init P = .ok D) (idx : ℕ)
    (hidx : idx < D.num_entries) :
    D.get_item_reads (idx : ℤ) =
      ReadOp.mk .label ((idx : ℕ) * (1 * P.batch_size) : ℕ) (1 * P.batch_size) ::
      ReadOp.mk .numerical ((idx : ℕ) * (2 * P.num_int_features * P.batch_size) : ℕ)
        (2 * P.num_int_features * P.batch_size) ::
      D.categorical_types.enum.map (fun c =>
        ReadOp.mk (.cat c.1) ((idx : ℕ) * (itemsize c.2 * P.batch_size) : ℕ)
          (itemsize c.2 * P.batch_size)) ∧
    P.cat_max_ids.mapM (fun m => get_categorical_feature_type (m + 1)) =
      .ok D.categorical_types := by
  obtain ⟨hct, _, _, hnum, hlab, hcat, _, _, _⟩ := init_fields P D hD
  refine ⟨?_, hct⟩
  unfold ParametricDataset.get_item_reads ParametricDataset.get_label_reads
    ParametricDataset.get_numerical_reads ParametricDataset.get_categorical_reads
  rw [hnum, hlab, hcat, enum_map_strides]
  simp [Int.natCast_mul]

/-- Witness for C4 at `Pex` / `Dex4`, index 0. -/
theorem C4_read_layout_witness :
    ParametricDataset.init Pex = .ok Dex4 ∧ 0 < Dex4.num_entries ∧
    Dex4.get_item_reads 0 =
      [⟨.label, 0, 2⟩, ⟨.numerical, 0, 8⟩, ⟨.cat 0, 0, 4⟩, ⟨.cat 1, 0, 8⟩,
        ⟨.cat 2, 0, 2⟩] := by
  have hinit : ParametricDataset.init Pex = .ok Dex4 :=
    (init_ok Pex [.int16, .int32, .int8] (by decide) (by decide)).trans (by decide)
  have h := C4_read_layout Pex Dex4 hinit 0 (by decide)
  exact ⟨hinit, by decide, h.1.trans (by decide)⟩

/-- Claim C5: `__len__` equals the label-file quotient
`label_file_size / label_bytes_per_batch`, rounded up when `drop_last_batch`
is false and down when it is true; the formula mentions only the label file,
so the categorical and numerical quotients (computed and discarded) do not
affect it. -/
theorem C5_length_from_label (P : InitParams) (D : ParametricDataset)
    (hD : ParametricDataset.init P = .ok D) (hbs : 0 < P.batch_size) :
    D.num_entries = labelBatchCount P := by
  obtain ⟨hct, _⟩ := init_fields P D hD
  have h := init_ok P D.categorical_types hct hbs
  rw [hD] at h
  injection h with h
  rw [h]

/-- Witness for C5 at `Pex` / `Dex4`: 6 label bytes at stride 2 give 3
batches. -/
theorem C5_length_from_label_witness :
    0 < Pex.batch_size ∧ Dex4.num_entries = labelBatchCount Pex ∧
    labelBatchCount Pex = 3 := by
  have hinit : ParametricDataset.init Pex = .ok Dex4 :=
    (init_ok Pex [.int16, .int32, .int8] (by decide) (by decide)).trans (by decide)
  exact ⟨by decide, C5_length_from_label Pex Dex4 hinit (by decide), by decide⟩

/-- Claim C6 counterexample: in `Pmis` the categorical file implies 1 batch
(2 bytes at stride 2), the numerical file implies 1 batch (4 bytes at
stride 4), while the label file implies 3 batches (6 bytes at stride 2) —
yet `__init__` raises nothing: it returns the dataset `Dmis` with 3 entries,
so no `LayoutMismatchError` (or any construction-time failure) exists. -/
theorem C6_mismatch_counterexample :
    ParametricDataset.init Pmis = .ok Dmis ∧ Dmis.num_entries = 3 ∧
    Pmis.cat_files.map List.length = [2] ∧ Pmis.numerical_file.length = 4 ∧
    Pmis.label_file.length = 6 := by
  refine ⟨(init_ok Pmis [.int8] (by decide) (by decide)).trans (by decide),
    by decide, by decide, by decide, by decide⟩

/-- Claim C6 (amended): `__init__` performs no cross-group consistency check:
replacing the categorical and numerical files by files of arbitrary sizes
never causes a construction failure and never changes the entry count, which
is determined by the label file alone. -/
theorem C6_no_mismatch_check (P : InitParams) (D : ParametricDataset)
    (hD : ParametricDataset.init P = .ok D)
    (cf : List (List Nat)) (nf : List Nat) :
    (ParametricDataset.init { P with cat_files := cf, numerical_file := nf }).map
      (fun d => d.num_entries) = .ok D.num_entries := by
  obtain ⟨hct, _⟩ := init_fields P D hD
  have hD2 := hD
  simp only [ParametricDataset.init, hct, bind, Except.bind, Except.ok.injEq] at hD2
  simp only [ParametricDataset.init, hct, bind, Except.bind, Except.map]
  rw [← hD2]
  simp [finalBatchNumFloat]

/-- Witness for C6 (amended): shrinking `Pex`'s group files to mismatched
sizes still constructs, with the same 3 entries. -/
theorem C6_no_mismatch_check_witness :
    (ParametricDataset.init
        { Pex with cat_files := [[9, 9]], numerical_file := [1, 2, 3] }).map
      (fun d => d.num_entries) = .ok Dex4.num_entries ∧
    Dex4.num_entries = 3 := by
  have hinit : ParametricDataset.init Pex = .ok Dex4 :=
    (init_ok Pex [.int16, .int32, .int8] (by decide) (by decide)).trans (by decide)
  exact ⟨C6_no_mismatch_check Pex Dex4 hinit [[9, 9]] [1, 2, 3], by decide⟩

/-- Claim C7 (amended): the bounds check of `__getitem__` is one-sided:
every index `idx ≥ num_entries` fails with `IndexError` before any positional
read is issued, but a negative index passes the check (and on the synchronous
path proceeds to `_get_item`, whose `pread` at a negative offset fails with
`OSError`, not `IndexError`). -/
theorem C7_bounds_check (D : ParametricDataset) (idx : ℤ) :
    ((D.num_entries : ℤ) ≤ idx →
      D.getitemSync idx = .error "IndexError" ∧ D.getitemSyncReads idx = [] ∧
      D.raisesIndexError idx = true) ∧
    (idx < 0 → D.raisesIndexError idx = false) := by
  unfold ParametricDataset.getitemSync ParametricDataset.getitemSyncReads
    ParametricDataset.raisesIndexError
  constructor
  · intro h
    rw [if_pos h, if_pos h]
    exact ⟨rfl, rfl, decide_eq_true h⟩
  · intro h
    exact decide_eq_false (by omega)

/-- Claim C7 counterexample: `get(-1)` does not fail with the index check —
the guard `idx >= num_entries` passes a negative index through, and the
synchronous path then attempts a read at offset -1, failing with `OSError`
rather than `IndexError`; `get(length())` by contrast does fail with
`IndexError`. -/
theorem C7_negative_index_counterexample :
    Dsync.raisesIndexError (-1) = false ∧
    Dsync.getitemSync (-1) = .error "OSError: Invalid argument" ∧
    Dsync.getitemSync (-1) ≠ .error "IndexError" ∧
    Dsync.getitemSync ((Dsync.num_entries : ℕ) : ℤ) = .error "IndexError" := by
  decide

/-- Witness for C7 (amended) at `Dsync`, indices 5 and -1. -/
theorem C7_bounds_check_witness :
    (Dsync.getitemSync 5 = .error "IndexError" ∧
      Dsync.getitemSyncReads 5 = [] ∧ Dsync.raisesIndexError 5 = true) ∧
    Dsync.raisesIndexError (-2) = false := by
  exact ⟨(C7_bounds_check Dsync 5).1 (by decide),
    (C7_bounds_check Dsync (-2)).2 (by decide)⟩

/-- Claim C8 counterexample: with 5 entries and depth 2, after consuming
indices 0, 1, 2 in order, a repeated `get(1)` re-submits index `1 + 2 = 3`
(already submitted once — the mid-call FIFO reads `[3, 4, 3]`) and returns
the FIFO front, which is the future for index 3: the caller receives batch 3,
not a fresh synchronous fetch of batch 1, and the bytes differ (both the
numerical word and the categorical id of batch 3 differ from batch 1). -/
theorem C8_repeated_get_counterexample :
    Dex5.num_entries = 5 ∧ Dex5.prefetch_depth = 2 ∧
    (runSteps 5 2 3).1 = [0, 1, 2] ∧
    (getitemStep 5 2 (runSteps 5 2 3).2 1).1 = [3, 4, 3] ∧
    (getitemStep 5 2 (runSteps 5 2 3).2 1).2.2 = some 3 ∧
    Dex5.get_item 3 ≠ Dex5.get_item 1 := by
  decide

/-- Claim C8 (amended): only on the synchronous path (`prefetch_depth ≤ 1`)
does a repeated `get(idx)` trigger exactly one fresh `_get_item` fetch with
its full set of per-group reads; being a pure function of the immutable
files, that repeated call is byte-identical to the first.  (On the prefetch
path a repeated request instead returns the FIFO front — see the
counterexample.) -/
theorem C8_sync_refetch (D : ParametricDataset) (idx : ℤ)
    (hp : D.prefetch_depth ≤ 1) (hidx : ¬ (D.num_entries : ℤ) ≤ idx) :
    D.getitemSync idx = D.get_item idx ∧
    D.getitemSyncReads idx = D.get_item_reads idx := by
  unfold ParametricDataset.getitemSync ParametricDataset.getitemSyncReads
  rw [if_neg hidx, if_neg hidx]
  exact ⟨rfl, rfl⟩

/-- Witness for C8 (amended) at `Dsync`, index 1. -/
theorem C8_sync_refetch_witness :
    Dsync.prefetch_depth ≤ 1 ∧ Dsync.getitemSync 1 = Dsync.get_item 1 ∧
    Dsync.getitemSyncReads 1 = Dsync.get_item_reads 1 := by
  have h := C8_sync_refetch Dsync 1 (by decide) (by decide)
  exact ⟨by decide, h.1, h.2⟩

/-- A positional read at a natural offset succeeds and returns the slice. -/
theorem pread_natCast (file : List ℕ) (c o : ℕ) :
    pread file c ((o : ℕ) : ℤ) = .ok ((file.drop o).take c) := by
  unfold pread
  rw [if_neg (by omega), Int.toNat_natCast]

/-- A full in-bounds slice has exactly the requested length. -/
theorem slice_len (file : List ℕ) (o c : ℕ) (h : o + c ≤ file.length) :
    ((file.drop o).take c).length = c := by
  simp only [List.length_take, List.length_drop]
  omega

/-- Number of exact chunks. -/
theorem length_chunksOf (w : ℕ) (l : List α) :
    (chunksOf w l).length = l.length / w := by
  simp [chunksOf]

/-- When the width divides the list exactly, every chunk has full width. -/
theorem mem_chunksOf_length (w m : ℕ) (l : List α) (hdiv : l.length = w * m) :
    ∀ c ∈ chunksOf w l, c.length = w := by
  intro c hc
  rcases Nat.eq_zero_or_pos w with rfl | hw
  · simp [chunksOf] at hc
  simp only [chunksOf, List.mem_map, List.mem_range] at hc
  obtain ⟨i, hi, rfl⟩ := hc
  rw [hdiv, Nat.mul_div_cancel_left _ hw] at hi
  have hmul : (i + 1) * w ≤ m * w := Nat.mul_le_mul_right w (by omega)
  rw [Nat.succ_mul] at hmul
  simp only [List.length_take, List.length_drop]
  rw [hdiv]
  have : i * w + w ≤ w * m := by rw [Nat.mul_comm w m]; omega
  omega

/-- Total length of a join of equal-length lists. -/
theorem flatten_length_eq (bs : ℕ) :
    ∀ (L : List (List ℤ)), (∀ a ∈ L, a.length = bs) →
      L.flatten.length = L.length * bs := by
  intro L
  induction L with
  | nil => simp
  | cons a L ih =>
    intro h
    simp only [List.flatten_cons, List.length_append, List.length_cons]
    rw [h a (by simp), ih (fun x hx => h x (by simp [hx]))]
    ring

/-- A successful `mapM` over `Except` preserves length. -/
theorem mapM_ok_length {α β : Type} (f : α → Except String β) :
    ∀ (l : List α) (out : List β), l.mapM f = .ok out → out.length = l.length := by
  intro l
  induction l with
  | nil =>
    intro out h
    rw [List.mapM_nil] at h
    simp only [pure, Except.pure, Except.ok.injEq] at h
    simp [← h]
  | cons a l ih =>
    intro out h
    rw [List.mapM_cons] at h
    cases hfa : f a with
    | error e => rw [hfa] at h; simp [bind, Except.bind] at h
    | ok b =>
      rw [hfa] at h
      cases hfl : l.mapM f with
      | error e => rw [hfl] at h; simp [bind, Except.bind] at h
      | ok bs =>
        rw [hfl] at h
        simp only [bind, Except.bind, pure, Except.pure, Except.ok.injEq] at h
        subst h
        simp [ih bs hfl]

/-- A `mapM` over `Except` whose steps all succeed is the corresponding
`map`. -/
theorem mapM_eq_ok {α β : Type} (f : α → Except String β) (g : α → β) :
    ∀ (l : List α), (∀ x ∈ l, f x = .ok (g x)) → l.mapM f = .ok (l.map g) := by
  intro l
  induction l with
  | nil => intro _; rfl
  | cons a l ih =>
    intro h
    rw [List.mapM_cons, h a (by simp), ih (fun x hx => h x (by simp [hx]))]
    rfl

/-- In the three-way `zip` of `_get_categorical_features`, each per-feature
byte count is the resolved width times the batch size. -/
theorem mem_zip_strides (bs : ℕ) :
    ∀ (l : List NpIntType) (m : List (List ℕ)) (pr : ℕ × NpIntType × List ℕ),
      pr ∈ (l.map (fun t => itemsize t * bs)).zip (l.zip m) →
        pr.1 = itemsize pr.2.1 * bs := by
  intro l
  induction l with
  | nil => simp
  | cons t l ih =>
    intro m pr hpr
    cases m with
    | nil => simp at hpr
    | cons file m =>
      simp only [List.map_cons, List.zip_cons_cons, List.mem_cons] at hpr
      rcases hpr with rfl | hpr
      · rfl
      · exact ih m pr hpr

/-- Positive byte widths. -/
theorem itemsize_pos (t : NpIntType) : 0 < itemsize t := by
  cases t <;> decide

/-- Claim C10: for a valid index whose label read returns a full batch, the
caller receives a float vector of length `batch_size` whose entries are
exactly 0 and 1: each stored byte is reinterpreted as a boolean (nonzero is
`True`) and converted to float32, so a nonzero byte becomes 1 and a zero byte
becomes 0 — the result is not a boolean array. -/
theorem C10_label_float01 (P : InitParams) (D : ParametricDataset)
    (hD : ParametricDataset.init P = .ok D) (idx : ℕ)
    (hL : (idx + 1) * (1 * P.batch_size) ≤ P.label_file.length) :
    D.get_label (idx : ℤ) =
      .ok (((P.label_file.drop (idx * (1 * P.batch_size))).take
          (1 * P.batch_size)).map (fun b => if b = 0 then (0 : ℚ) else 1)) ∧
    (((P.label_file.drop (idx * (1 * P.batch_size))).take
        (1 * P.batch_size)).map (fun b => if b = 0 then (0 : ℚ) else 1)).length =
      P.batch_size ∧
    ∀ q ∈ ((P.label_file.drop (idx * (1 * P.batch_size))).take
        (1 * P.batch_size)).map (fun b => if b = 0 then (0 : ℚ) else 1),
      q = 0 ∨ q = 1 := by
  obtain ⟨_, _, _, _, hlab, _, hlf, _, _⟩ := init_fields P D hD
  have hexp : (idx + 1) * (1 * P.batch_size) =
      idx * (1 * P.batch_size) + 1 * P.batch_size := by ring
  have hcast : ((idx : ℤ) * ((1 * P.batch_size : ℕ) : ℤ)) =
      (((idx * (1 * P.batch_size) : ℕ)) : ℤ) := by push_cast; ring
  refine ⟨?_, ?_, ?_⟩
  · unfold ParametricDataset.get_label
    rw [hlab, hlf, hcast, pread_natCast]
    rfl
  · rw [List.length_map, slice_len _ _ _ (by omega)]
    omega
  · intro q hq
    simp only [List.mem_map] at hq
    obtain ⟨b, _, rfl⟩ := hq
    by_cases hb : b = 0 <;> simp [hb]

/-- Witness for C10 at `Pex` / `Dex4`, index 1: label bytes `[2, 0]` decode
to `[1, 0]`. -/
theorem C10_label_float01_witness :
    Dex4.get_label 1 = .ok [1, 0] ∧ Pex.batch_size = 2 := by
  have hinit : ParametricDataset.init Pex = .ok Dex4 :=
    (init_ok Pex [.int16, .int32, .int8] (by decide) (by decide)).trans (by decide)
  have h := (C10_label_float01 Pex Dex4 hinit 1 (by decide)).1
  exact ⟨by rw [show ((1 : ℕ) : ℤ) = (1 : ℤ) from rfl] at h; exact h.trans (by decide),
    by decide⟩

/-- Claim C9: decoding postcondition for a valid index with full in-bounds
batches.  The label bytes decode to a flat array of length `batch_size`
(boolean-derived floats); the numerical bytes decode as a flat float16 array
reshaped to `batch_size` rows of `num_int_features` elements, in declaration
order; each categorical group's bytes are decoded at that feature's own
resolved width, widened to mathematical integers (the value-preserving
`.to(torch.long)` sign extension), and the per-feature arrays are
concatenated in feature-declaration order into one flat array of length
`num_categorical_features * batch_size`.  The categorical feature list must
be non-empty, as `torch.cat` rejects an empty list of tensors (Criteo has
26 features). -/
theorem C9_decode_postcondition (P : InitParams) (D : ParametricDataset)
    (hD : ParametricDataset.init P = .ok D) (idx : ℕ)
    (hbs : 0 < P.batch_size) (hni : 0 < P.num_int_features)
    (hL : (idx + 1) * (1 * P.batch_size) ≤ P.label_file.length)
    (hN : (idx + 1) * (2 * P.num_int_features * P.batch_size) ≤
      P.numerical_file.length)
    (hC : ∀ pr ∈ D.categorical_bytes_per_batch.zip
        (D.categorical_types.zip D.categorical_features_files),
      (idx + 1) * pr.1 ≤ pr.2.2.length)
    (hCF : P.cat_files.length = D.categorical_types.length)
    (hne : D.categorical_types ≠ []) :
    ((D.get_label (idx : ℤ)).map List.length = .ok P.batch_size) ∧
    (D.get_numerical_features (idx : ℤ) =
        .ok (chunksOf P.num_int_features ((chunksOf 2
          ((P.numerical_file.drop
              (idx * (2 * P.num_int_features * P.batch_size))).take
            (2 * P.num_int_features * P.batch_size))).map leValue)) ∧
      (D.get_numerical_features (idx : ℤ)).map List.length = .ok P.batch_size ∧
      ∀ rows, D.get_numerical_features (idx : ℤ) = .ok rows →
        ∀ row ∈ rows, row.length = P.num_int_features) ∧
    (D.get_categorical_features (idx : ℤ) =
        .ok (List.flatten ((D.categorical_bytes_per_batch.zip
            (D.categorical_types.zip D.categorical_features_files)).map
          (fun c => (chunksOf (itemsize c.2.1)
              ((c.2.2.drop (idx * c.1)).take c.1)).map (decodeSigned c.2.1)))) ∧
      (D.get_categorical_features (idx : ℤ)).map List.length =
        .ok (P.cat_max_ids.length * P.batch_size)) := by
  obtain ⟨hct, hbsD, hniD, hnum, hlab, hcat, hlf, hnf, hcf⟩ := init_fields P D hD
  -- label
  have hexpL : (idx + 1) * (1 * P.batch_size) =
      idx * (1 * P.batch_size) + 1 * P.batch_size := by ring
  have hcastL : ((idx : ℤ) * ((1 * P.batch_size : ℕ) : ℤ)) =
      (((idx * (1 * P.batch_size) : ℕ)) : ℤ) := by push_cast; ring
  have hlabeq : D.get_label (idx : ℤ) =
      .ok (((P.label_file.drop (idx * (1 * P.batch_size))).take
        (1 * P.batch_size)).map (fun b => if b = 0 then (0 : ℚ) else 1)) := by
    unfold ParametricDataset.get_label
    rw [hlab, hlf, hcastL, pread_natCast]
    rfl
  -- numerical
  have hexpN : (idx + 1) * (2 * P.num_int_features * P.batch_size) =
      idx * (2 * P.num_int_features * P.batch_size) +
        2 * P.num_int_features * P.batch_size := by ring
  have hcastN : ((idx : ℤ) * ((2 * P.num_int_features * P.batch_size : ℕ) : ℤ)) =
      (((idx * (2 * P.num_int_features * P.batch_size) : ℕ)) : ℤ) := by
    push_cast; ring
  have hslN : ((P.numerical_file.drop
      (idx * (2 * P.num_int_features * P.batch_size))).take
        (2 * P.num_int_features * P.batch_size)).length =
      2 * P.num_int_features * P.batch_size := slice_len _ _ _ (by omega)
  have hmod2 : (2 * P.num_int_features * P.batch_size) % 2 = 0 := by
    rw [Nat.mul_assoc]
    exact Nat.mul_mod_right 2 _
  have hwords : ((chunksOf 2 ((P.numerical_file.drop
      (idx * (2 * P.num_int_features * P.batch_size))).take
        (2 * P.num_int_features * P.batch_size))).map leValue).length =
      P.num_int_features * P.batch_size := by
    rw [List.length_map, length_chunksOf, hslN, Nat.mul_assoc,
      Nat.mul_div_cancel_left _ (by omega : (0 : ℕ) < 2)]
  have hnumeq : D.get_numerical_features (idx : ℤ) =
      .ok (chunksOf P.num_int_features ((chunksOf 2
        ((P.numerical_file.drop
            (idx * (2 * P.num_int_features * P.batch_size))).take
          (2 * P.num_int_features * P.batch_size))).map leValue)) := by
    unfold ParametricDataset.get_numerical_features
    rw [hnum, hnf, hniD, hcastN, pread_natCast]
    show (npFrombufferF16 _ >>= torchView P.num_int_features) = _
    unfold npFrombufferF16
    rw [hslN, if_neg (by omega)]
    show torchView P.num_int_features _ = _
    unfold torchView
    rw [if_neg ?side]
    case side =>
      push_neg
      refine ⟨by omega, ?_⟩
      rw [hwords]
      simp [Nat.mul_mod_right]
  -- categorical
  have hmapcat : (D.categorical_bytes_per_batch.zip
      (D.categorical_types.zip D.categorical_features_files)).mapM
        (fun c => do
          let raw ← pread c.2.2 c.1 ((idx : ℤ) * (c.1 : ℤ))
          npFrombufferInt c.2.1 raw) =
      .ok ((D.categorical_bytes_per_batch.zip
        (D.categorical_types.zip D.categorical_features_files)).map
          (fun c => (chunksOf (itemsize c.2.1)
            ((c.2.2.drop (idx * c.1)).take c.1)).map (decodeSigned c.2.1))) := by
    apply mapM_eq_ok
    intro pr hpr
    have hstr : pr.1 = itemsize pr.2.1 * P.batch_size := by
      rw [hcat, hcf] at hpr
      exact mem_zip_strides P.batch_size D.categorical_types P.cat_files pr hpr
    have hfull := hC pr hpr
    have hexpC : (idx + 1) * pr.1 = idx * pr.1 + pr.1 := by ring
    have hcastC : ((idx : ℤ) * (pr.1 : ℤ)) = ((idx * pr.1 : ℕ) : ℤ) := by
      push_cast; ring
    have hslC : ((pr.2.2.drop (idx * pr.1)).take pr.1).length = pr.1 :=
      slice_len _ _ _ (by omega)
    rw [hcastC, pread_natCast]
    show npFrombufferInt pr.2.1 _ = _
    unfold npFrombufferInt
    rw [if_neg ?hside]
    case hside =>
      push_neg
      rw [hslC, hstr]
      exact Nat.mul_mod_right _ _
  have h1 : D.categorical_bytes_per_batch.length =
      D.categorical_types.length := by rw [hcat, List.length_map]
  have h2 : D.categorical_features_files.length =
      D.categorical_types.length := by rw [hcf]; exact hCF
  have hzlen : (D.categorical_bytes_per_batch.zip
      (D.categorical_types.zip D.categorical_features_files)).length =
      D.categorical_types.length := by
    rw [List.length_zip, List.length_zip, h1, h2, Nat.min_self, Nat.min_self]
  have hcateq : D.get_categorical_features (idx : ℤ) =
      .ok (List.flatten ((D.categorical_bytes_per_batch.zip
          (D.categorical_types.zip D.categorical_features_files)).map
        (fun c => (chunksOf (itemsize c.2.1)
          ((c.2.2.drop (idx * c.1)).take c.1)).map (decodeSigned c.2.1)))) := by
    unfold ParametricDataset.get_categorical_features
    rw [hmapcat]
    show torchCat _ = _
    unfold torchCat
    rw [if_neg ?hempty]
    case hempty =>
      simp only [List.isEmpty_iff, List.map_eq_nil_iff]
      intro h
      have hlen0 := congrArg List.length h
      rw [hzlen] at hlen0
      simp only [List.length_nil] at hlen0
      exact hne (List.length_eq_zero.mp hlen0)
  refine ⟨?_, ⟨hnumeq, ?_, ?_⟩, hcateq, ?_⟩
  · rw [hlabeq]
    simp only [Except.map, List.length_map]
    rw [slice_len _ _ _ (by omega), one_mul]
  · rw [hnumeq]
    simp only [Except.map]
    rw [length_chunksOf, hwords, Nat.mul_div_cancel_left _ hni]
  · intro rows hrows
    rw [hnumeq] at hrows
    injection hrows with h
    subst h
    intro row hrow
    exact mem_chunksOf_length P.num_int_features P.batch_size _ hwords row hrow
  · rw [hcateq]
    simp only [Except.map]
    have hall : ∀ a ∈ (D.categorical_bytes_per_batch.zip
        (D.categorical_types.zip D.categorical_features_files)).map
          (fun c => (chunksOf (itemsize c.2.1)
            ((c.2.2.drop (idx * c.1)).take c.1)).map (decodeSigned c.2.1)),
        a.length = P.batch_size := by
      intro a ha
      simp only [List.mem_map] at ha
      obtain ⟨pr, hpr, rfl⟩ := ha
      have hpr2 := hpr
      rw [hcat, hcf] at hpr2
      have hstr := mem_zip_strides P.batch_size D.categorical_types P.cat_files
        pr hpr2
      have hfull := hC pr hpr
      have hexpC : (idx + 1) * pr.1 = idx * pr.1 + pr.1 := by ring
      have hslC : ((pr.2.2.drop (idx * pr.1)).take pr.1).length = pr.1 :=
        slice_len _ _ _ (by omega)
      rw [List.length_map, length_chunksOf, hslC, hstr,
        Nat.mul_div_cancel_left _ (itemsize_pos _)]
    have hlen : (D.categorical_bytes_per_batch.zip
        (D.categorical_types.zip D.categorical_features_files)).length =
        P.cat_max_ids.length := by
      rw [hzlen]
      exact mapM_ok_length _ _ _ hct
    rw [flatten_length_eq P.batch_size _ hall, List.length_map, hlen]

/-- Witness for C9 at `Pex` / `Dex4`, index 0: batch of 2 rows across
2 numerical features, and `3 * 2 = 6` concatenated categorical ids. -/
theorem C9_decode_postcondition_witness :
    (Dex4.get_label 0).map List.length = .ok 2 ∧
    (Dex4.get_numerical_features 0).map List.length = .ok 2 ∧
    (Dex4.get_categorical_features 0).map List.length = .ok 6 := by
  have hinit : ParametricDataset.init Pex = .ok Dex4 :=
    (init_ok Pex [.int16, .int32, .int8] (by decide) (by decide)).trans (by decide)
  have h := C9_decode_postcondition Pex Dex4 hinit 0 (by decide) (by decide)
    (by decide) (by decide) (by decide) (by decide) (by decide)
  exact ⟨by simpa using h.1, by simpa using h.2.1.2.1, by simpa using h.2.2.2⟩
